import Mathlib

/-
  Verification development for the real-time arithmetic-quiz server
  (src/server.js).  The server state and handlers are shallowly embedded:
  the registry of active players is an insertion-ordered association list
  (JavaScript objects with non-index string keys preserve insertion order),
  socket emissions become explicit event lists, setTimeout calls become
  explicit scheduled tasks, and the per-player interval timer is modelled
  by the boolean field `timer` (true exactly when player.timer is a live
  interval handle, i.e. not null).  Date.now() values are threaded as
  explicit `now : Nat` arguments, and the random question generator takes
  its random draws as an argument.
-/

namespace Quiz

/-- Game status of a session (source: `player.status`, the strings
`in-progress` and `finished`). -/
inductive Status where
  | inProgress
  | finished
deriving DecidableEq, Repr

/-- One generated question (source: the objects pushed by
`generateQuestionSet`). -/
structure Question where
  id : Nat
  text : String
  answer : Int
  points : Nat
deriving DecidableEq, Repr

/-- One player session (source: the objects stored in `activePlayers`).
`timer = true` models a non-null interval handle.
`currentQuestionStartTime` defaults to 0 before the first timer start. -/
structure Player where
  id : String
  name : String
  score : Nat
  questionIndex : Nat
  questionSet : List Question
  gameStartTime : Nat
  totalTimeMs : Nat
  timer : Bool
  currentQuestionStartTime : Nat
  status : Status
deriving DecidableEq, Repr

/-- Source: `const MAX_QUESTIONS = 10`. -/
def MAX_QUESTIONS : Nat := 10

/-- Source: `const TIME_PER_QUESTION_SECONDS = 60`. -/
def TIME_PER_QUESTION_SECONDS : Int := 60

/-- JavaScript `s.padStart(2, '0')`. -/
def padStart2 (s : String) : String :=
  if s.length < 2 then String.mk (List.replicate (2 - s.length) '0') ++ s else s

/-- Source: `formatTime(ms)` — minutes and seconds zero-padded, then the
first two characters of the decimal string of `ms % 1000`
(`milliseconds.toString().slice(0, 2).padStart(2, '0')`). -/
def formatTime (ms : Nat) : String :=
  let totalSeconds := ms / 1000
  let minutes := totalSeconds / 60
  let seconds := totalSeconds % 60
  let milliseconds := ms % 1000
  padStart2 (toString minutes) ++ ":" ++ padStart2 (toString seconds) ++ "."
    ++ padStart2 ((toString milliseconds).take 2)

/-- A client-submitted answer value: socket.io delivers a string or a
number (integral numbers only are relevant here). -/
inductive JSVal where
  | str (s : String)
  | num (n : Int)
deriving DecidableEq, Repr

/-- Decimal value of a digit list. -/
def digitsVal (cs : List Char) : Nat :=
  cs.foldl (fun a c => a * 10 + (c.toNat - 48)) 0

/-- Leading-digit parse used by `parseIntJS`: value of the longest digit
run at the front, or none when it is empty. -/
def parseDigits (cs : List Char) : Option Nat :=
  let ds := cs.takeWhile Char.isDigit
  if ds.isEmpty then none else some (digitsVal ds)

/-- Surrounding whitespace removed from a character list. -/
def trimChars (cs : List Char) : List Char :=
  ((cs.dropWhile Char.isWhitespace).reverse.dropWhile Char.isWhitespace).reverse

/-- JavaScript `parseInt(x, 10)`: for a number the value itself (an
integral number round-trips through its decimal string); for a string,
trim whitespace, accept an optional sign, then the longest leading digit
run, and NaN (none) when there is no digit. -/
def parseIntJS : JSVal → Option Int
  | .num n => some n
  | .str s =>
    match trimChars s.toList with
    | '-' :: rest => (parseDigits rest).map (fun n => -(n : Int))
    | '+' :: rest => (parseDigits rest).map (fun n => (n : Int))
    | cs => (parseDigits cs).map (fun n => (n : Int))

/-- The `newQuestion` payload: the object spread `{ ...question, index,
total }` copies every own property of the question, so the payload carries
the `answer` field alongside id, text and points. -/
structure NewQuestionPayload where
  id : Nat
  text : String
  answer : Int
  points : Nat
  index : Nat
  total : Nat
deriving DecidableEq, Repr

/-- The leaderboard `totalTimeMs` projection: a finite millisecond count
for finished players, `Infinity` for in-progress ones. -/
inductive TimeVal where
  | fin (n : Nat)
  | inf
deriving DecidableEq, Repr

/-- One entry of the broadcast leaderboard (source: the `.map` projection
in `broadcastLeaderboard`). -/
structure LBEntry where
  id : String
  name : String
  score : Nat
  status : String
  totalTimeMs : TimeVal
deriving DecidableEq, Repr

/-- One entry of the winner notification (source: the `.map` projection in
`checkAndNotifyWinners`). -/
structure WinnerEntry where
  name : String
  score : Nat
  time : String
deriving DecidableEq, Repr

/-- Events the server can emit over a socket. -/
inductive Event where
  | newQuestion (p : NewQuestionPayload)
  | updateTimer (secondsLeft : Int)
  | answerFeedback (isCorrect : Bool) (reason : Option String) (correctAnswer : Option Int)
  | gameOver (score : Nat) (totalTime : String)
  | updateLeaderboard (entries : List LBEntry)
  | playerCount (n : Nat)
  | winnerNotification (ws : List WinnerEntry)
deriving DecidableEq, Repr

/-- An emission: `socket.emit` / `io.to(id).emit` are unicasts,
`io.emit` is a broadcast to every client. -/
inductive Emitted where
  | unicast (dest : String) (e : Event)
  | broadcast (e : Event)
deriving DecidableEq, Repr

/-- A pending `setTimeout(() => moveToNextQuestion(id), delay)` call. -/
inductive SchedTask where
  | advance (pid : String) (delayMs : Nat)
deriving DecidableEq, Repr

/-- The registry `activePlayers`: key-insertion-ordered association list. -/
abbrev Reg := List (String × Player)

/-- Property lookup `activePlayers[id]`. -/
def lookupA : Reg → String → Option Player
  | [], _ => none
  | (k, p) :: rest, key => if k = key then some p else lookupA rest key

/-- Property assignment `activePlayers[id] = p`: an existing key keeps its
position, a new key is appended. -/
def updateA : Reg → String → Player → Reg
  | [], key, p => [(key, p)]
  | (k, q) :: rest, key, p =>
    if k = key then (k, p) :: rest else (k, q) :: updateA rest key p

/-- Property deletion `delete activePlayers[id]`. -/
def removeA : Reg → String → Reg
  | [], _ => []
  | (k, q) :: rest, key => if k = key then rest else (k, q) :: removeA rest key

/-- `Object.values(activePlayers)` in insertion order. -/
def regValues (st : Reg) : List Player := st.map Prod.snd

/-- Stable insertion of `x` into `l` under an ECMAScript comparator `c`:
`x` goes in front of the first element `y` that does not satisfy
`c y x < 0`, so comparator-tied elements keep their original order. -/
def insertC (c : α → α → Int) (x : α) : List α → List α
  | [] => [x]
  | y :: ys => if c y x < 0 then y :: insertC c x ys else x :: y :: ys

/-- `Array.prototype.sort(c)`: stable sort by the comparator `c`
(ECMAScript requires sort stability). -/
def sortC (c : α → α → Int) : List α → List α
  | [] => []
  | x :: xs => insertC c x (sortC c xs)

/-- The comparator of `broadcastLeaderboard`: finished before
in-progress; among finished, score descending then time ascending; among
in-progress, score descending. -/
def leaderboardCmp (a b : Player) : Int :=
  if a.status = .finished ∧ b.status ≠ .finished then -1
  else if a.status ≠ .finished ∧ b.status = .finished then 1
  else if a.status = .finished ∧ b.status = .finished then
    if b.score ≠ a.score then (b.score : Int) - (a.score : Int)
    else (a.totalTimeMs : Int) - (b.totalTimeMs : Int)
  else (b.score : Int) - (a.score : Int)

/-- The comparator of `checkAndNotifyWinners`: score descending, then
total time ascending. -/
def winnersCmp (a b : Player) : Int :=
  if b.score ≠ a.score then (b.score : Int) - (a.score : Int)
  else (a.totalTimeMs : Int) - (b.totalTimeMs : Int)

/-- The status label shown on the leaderboard. -/
def lbStatusLabel (p : Player) : String :=
  if p.status = .finished then "Finished (" ++ formatTime p.totalTimeMs ++ ")"
  else "Q" ++ toString (p.questionIndex + 1) ++ "/" ++ toString MAX_QUESTIONS

/-- The leaderboard projection of one player. -/
def lbEntry (p : Player) : LBEntry :=
  { id := p.id
    name := p.name
    score := p.score
    status := lbStatusLabel p
    totalTimeMs := if p.status = .finished then .fin p.totalTimeMs else .inf }

/-- The sorted player list computed inside `broadcastLeaderboard` before
projection. -/
def sortedPlayers (st : Reg) : List Player :=
  sortC leaderboardCmp (regValues st)

/-- Source: `broadcastLeaderboard()` — emits the projected sorted list and
the player count to every client. -/
def broadcastLeaderboard (st : Reg) : List Emitted :=
  let entries := (sortedPlayers st).map lbEntry
  [.broadcast (.updateLeaderboard entries), .broadcast (.playerCount entries.length)]

/-- The ranked finished subset computed inside `checkAndNotifyWinners`. -/
def finishedRanked (st : Reg) : List Player :=
  sortC winnersCmp ((regValues st).filter (fun p => p.status = .finished))

/-- The winner projection of one finished player. -/
def winnerProj (p : Player) : WinnerEntry :=
  { name := p.name, score := p.score, time := formatTime p.totalTimeMs }

/-- The top-3 winner list (`filter`, `sort`, `slice(0, 3)`, `map`). -/
def winnersOf (st : Reg) : List WinnerEntry :=
  ((finishedRanked st).take 3).map winnerProj

/-- Source: `checkAndNotifyWinners()` — broadcasts the winner list only
when it is non-empty. -/
def checkAndNotifyWinners (st : Reg) : List Emitted :=
  let ws := winnersOf st
  if 0 < ws.length then [.broadcast (.winnerNotification ws)] else []

/-- Source: `generateQuestionSet()` — the random draws A ∈ [1,5],
B ∈ [1,10], X ∈ [1,10] are supplied per slot by `rnd`; ids are
`Date.now() + i`. -/
def generateQuestionSet (now : Nat) (rnd : Nat → Nat × Nat × Nat) : List Question :=
  (List.range MAX_QUESTIONS).map (fun i =>
    let (A, B, X) := rnd i
    let C := A * X + B
    { id := now + i
      text :=
        if A = 1 then "X + " ++ toString B ++ " = " ++ toString C
        else toString A ++ "X + " ++ toString B ++ " = " ++ toString C
      answer := (X : Int)
      points := 10 })

/-- Source: `startQuestionTimer(playerId)` — returns unchanged when the
player is missing or finished; otherwise clears any previous interval and
installs a fresh one (net effect `timer := true`), records the question
start time, and emits the initial `updateTimer` with 60 seconds.  The
socket of a registered player is assumed connected. -/
def startQuestionTimer (now : Nat) (pid : String) (st : Reg) : Reg × List Emitted :=
  match lookupA st pid with
  | none => (st, [])
  | some p =>
    if p.status = .finished then (st, [])
    else
      let p := { p with currentQuestionStartTime := now, timer := true }
      (updateA st pid p, [.unicast pid (.updateTimer TIME_PER_QUESTION_SECONDS)])

/-- The body run by the interval callback when `timeLeft` reaches 0
(source: the `timeLeft <= 0` branch inside `startQuestionTimer`): clear
the interval, emit the time-up feedback carrying the correct answer, and
schedule an advance after 2000 ms.  Only meaningful when the player's
timer is live. -/
def timeUp (pid : String) (st : Reg) : Reg × List Emitted × List SchedTask :=
  match lookupA st pid with
  | none => (st, [], [])
  | some p =>
    let p1 := { p with timer := false }
    match p.questionSet.get? p.questionIndex with
    | none => (updateA st pid p1, [], [])
    | some currentQ =>
      (updateA st pid p1,
       [.unicast pid (.answerFeedback false (some "Time up!") (some currentQ.answer))],
       [.advance pid 2000])

/-- Source: `moveToNextQuestion(playerId)` — returns unchanged when the
player is missing (no guard exists for an already finished player);
otherwise clears the timer, increments `questionIndex`, and either emits
the next question (the full question object is spread into the payload),
restarts the timer and rebroadcasts the leaderboard, or finishes the game:
sets the status and `totalTimeMs`, emits `gameOver`, rebroadcasts the
leaderboard and recomputes winners. -/
def moveToNextQuestion (now : Nat) (pid : String) (st : Reg) : Reg × List Emitted :=
  match lookupA st pid with
  | none => (st, [])
  | some p =>
    let p := { p with timer := false }
    let p := { p with questionIndex := p.questionIndex + 1 }
    if p.questionIndex < MAX_QUESTIONS then
      match p.questionSet.get? p.questionIndex with
      | none => (updateA st pid p, [])
      | some nextQ =>
        let payload : NewQuestionPayload :=
          { id := nextQ.id, text := nextQ.text, answer := nextQ.answer
            points := nextQ.points, index := p.questionIndex + 1, total := MAX_QUESTIONS }
        let st1 := updateA st pid p
        let timed := startQuestionTimer now pid st1
        (timed.1, .unicast pid (.newQuestion payload) :: timed.2 ++ broadcastLeaderboard timed.1)
    else
      let p := { p with status := .finished, totalTimeMs := now - p.gameStartTime }
      let st1 := updateA st pid p
      (st1, .unicast pid (.gameOver p.score (formatTime p.totalTimeMs))
              :: broadcastLeaderboard st1 ++ checkAndNotifyWinners st1)

/-- Source: the `submitAnswer` handler — missing or finished player:
return unchanged.  Otherwise, within the try block: read the current
question, `parseInt` the answer; NaN gives the invalid-input feedback and
a 2000 ms advance with the timer left untouched (the handler returns
before the timer-clearing statement); a parsed value clears the timer,
compares question id and value, and emits correct feedback plus a 1000 ms
advance or incorrect feedback plus a 2000 ms advance.  A missing current
question makes every branch throw on its first property access, so the
catch block emits the server-error feedback and a 3000 ms advance. -/
def submitAnswer (pid : String) (qid : Nat) (ans : JSVal) (st : Reg) :
    Reg × List Emitted × List SchedTask :=
  match lookupA st pid with
  | none => (st, [], [])
  | some p =>
    if p.status = .finished then (st, [], [])
    else
      match p.questionSet.get? p.questionIndex with
      | none =>
        (st, [.unicast pid (.answerFeedback false (some "Server Error.") none)],
         [.advance pid 3000])
      | some currentQ =>
        match parseIntJS ans with
        | none =>
          (st,
           [.unicast pid (.answerFeedback false (some "Invalid Input.") (some currentQ.answer))],
           [.advance pid 2000])
        | some v =>
          let p := { p with timer := false }
          if qid = currentQ.id ∧ v = currentQ.answer then
            let p := { p with score := p.score + currentQ.points }
            (updateA st pid p,
             [.unicast pid (.answerFeedback true none (some currentQ.answer))],
             [.advance pid 1000])
          else
            (updateA st pid p,
             [.unicast pid (.answerFeedback false (some "Incorrect.") (some currentQ.answer))],
             [.advance pid 2000])

/-- Source: the `joinGame` handler — builds the session (default display
name `Player <r>` when the supplied name is absent or empty), stores it,
emits the first question (again spreading the full question object into
the payload) with index 1, starts the timer, rebroadcasts the leaderboard
and recomputes winners.  The freshly generated question set is passed in
because generation is random. -/
def joinGame (now r : Nat) (pid : String) (playerName : Option String)
    (qs : List Question) (st : Reg) : Reg × List Emitted :=
  let name :=
    match playerName with
    | some s => if s = "" then "Player " ++ toString r else s
    | none => "Player " ++ toString r
  let p : Player :=
    { id := pid, name := name, score := 0, questionIndex := 0, questionSet := qs
      gameStartTime := now, totalTimeMs := 0, timer := false
      currentQuestionStartTime := 0, status := .inProgress }
  let st1 := updateA st pid p
  match qs.get? 0 with
  | none => (st1, [])
  | some firstQuestion =>
    let payload : NewQuestionPayload :=
      { id := firstQuestion.id, text := firstQuestion.text
        answer := firstQuestion.answer, points := firstQuestion.points
        index := 1, total := MAX_QUESTIONS }
    let timed := startQuestionTimer now pid st1
    (timed.1, .unicast pid (.newQuestion payload)
                :: timed.2 ++ broadcastLeaderboard timed.1 ++ checkAndNotifyWinners timed.1)

/-- Source: the `disconnect` handler — clears the timer if live, removes
the session, rebroadcasts the leaderboard and recomputes winners. -/
def disconnectHandler (pid : String) (st : Reg) : Reg × List Emitted :=
  let st1 := removeA st pid
  (st1, broadcastLeaderboard st1 ++ checkAndNotifyWinners st1)

/-! Generic facts about the stable comparator sort `sortC`. -/

theorem insertC_perm (c : α → α → Int) (x : α) (l : List α) :
    (insertC c x l).Perm (x :: l) := by
  induction l with
  | nil => simp [insertC]
  | cons y ys ih =>
    simp only [insertC]
    split
    · exact (ih.cons y).trans (List.Perm.swap x y ys)
    · exact List.Perm.refl _

theorem sortC_perm (c : α → α → Int) (l : List α) : (sortC c l).Perm l := by
  induction l with
  | nil => exact List.Perm.refl _
  | cons x xs ih => exact (insertC_perm c x (sortC c xs)).trans (ih.cons x)

theorem insertC_pairwise (c : α → α → Int)
    (hstop : ∀ a b, ¬ c a b < 0 → c b a ≤ 0)
    (htrans : ∀ a b d, c a b ≤ 0 → c b d ≤ 0 → c a d ≤ 0)
    (x : α) (l : List α) (hl : l.Pairwise (fun a b => c a b ≤ 0)) :
    (insertC c x l).Pairwise (fun a b => c a b ≤ 0) := by
  induction l with
  | nil => simp [insertC]
  | cons y ys ih =>
    rw [List.pairwise_cons] at hl
    obtain ⟨hy, hys⟩ := hl
    simp only [insertC]
    split
    next h =>
      refine List.pairwise_cons.mpr ⟨?_, ih hys⟩
      intro z hz
      have hz2 : z ∈ x :: ys := (insertC_perm c x ys).mem_iff.mp hz
      rcases List.mem_cons.mp hz2 with hz3 | hz3
      · exact hz3 ▸ Int.le_of_lt h
      · exact hy z hz3
    next h =>
      have hxy : c x y ≤ 0 := hstop y x h
      refine List.pairwise_cons.mpr ⟨?_, List.pairwise_cons.mpr ⟨hy, hys⟩⟩
      intro z hz
      rcases List.mem_cons.mp hz with rfl | hz
      · exact hxy
      · exact htrans x y z hxy (hy z hz)

theorem sortC_pairwise (c : α → α → Int)
    (hstop : ∀ a b, ¬ c a b < 0 → c b a ≤ 0)
    (htrans : ∀ a b d, c a b ≤ 0 → c b d ≤ 0 → c a d ≤ 0)
    (l : List α) : (sortC c l).Pairwise (fun a b => c a b ≤ 0) := by
  induction l with
  | nil => simp [sortC]
  | cons x xs ih => exact insertC_pairwise c hstop htrans x (sortC c xs) ih

theorem insertC_filter (c : α → α → Int) (p : α → Bool) (x : α) (l : List α)
    (h : ∀ y ∈ l, p y = true → p x = true → c y x = 0) :
    (insertC c x l).filter p = if p x then x :: l.filter p else l.filter p := by
  induction l with
  | nil => cases hx : p x <;> simp [insertC, List.filter, hx]
  | cons y ys ih =>
    have ih' := ih (fun z hz => h z (List.mem_cons_of_mem y hz))
    simp only [insertC]
    split
    next hyx =>
      cases hx : p x with
      | true =>
        have hyf : p y = false := by
          cases hyv : p y with
          | false => rfl
          | true =>
            have := h y (List.mem_cons_self y ys) hyv hx
            omega
        simp only [List.filter_cons, hyf, ih', hx, if_true, Bool.false_eq_true, if_false]
      | false =>
        simp only [List.filter_cons, ih', hx, Bool.false_eq_true, if_false]
    next hyx =>
      cases hx : p x <;> simp [List.filter_cons, hx]

theorem sortC_filter (c : α → α → Int) (p : α → Bool)
    (hp : ∀ a b, p a = true → p b = true → c a b = 0) (l : List α) :
    (sortC c l).filter p = l.filter p := by
  induction l with
  | nil => rfl
  | cons x xs ih =>
    simp only [sortC]
    rw [insertC_filter c p x (sortC c xs) (fun y _ pya pxa => hp y x pya pxa)]
    cases hx : p x <;> simp [List.filter_cons, hx, ih]

/-! The spec-side description of the leaderboard order, for comparison
with the comparator translated from the source. -/

/-- Primary leaderboard key: finished sessions rank before in-progress
ones. -/
def statusRank (p : Player) : Nat := if p.status = .finished then 0 else 1

/-- Time key: elapsed milliseconds for finished sessions; in-progress
sessions are never compared on time (their comparator ignores it), so
their key is the constant 0. -/
def lbTimeKey (p : Player) : Nat := if p.status = .finished then p.totalTimeMs else 0

/-- Full tie key: two players are comparator-tied exactly when their tie
keys agree. -/
def lbTieKey (p : Player) : Nat × Nat × Nat := (statusRank p, p.score, lbTimeKey p)

/-- The order demanded by the spec: finished before in-progress, then
score descending, then (among finished) elapsed time ascending. -/
def lbKeyLe (a b : Player) : Prop :=
  statusRank a < statusRank b
    ∨ (statusRank a = statusRank b
        ∧ (b.score < a.score ∨ (b.score = a.score ∧ lbTimeKey a ≤ lbTimeKey b)))

theorem leaderboardCmp_le_iff (a b : Player) :
    leaderboardCmp a b ≤ 0 ↔ lbKeyLe a b := by
  unfold leaderboardCmp lbKeyLe statusRank lbTimeKey
  cases ha : a.status <;> cases hb : b.status <;> simp <;> (try split_ifs) <;> omega

theorem leaderboardCmp_antisymm (a b : Player) :
    leaderboardCmp a b = - leaderboardCmp b a := by
  unfold leaderboardCmp
  cases ha : a.status <;> cases hb : b.status <;> simp <;> split_ifs <;> omega

theorem leaderboardCmp_stop (a b : Player)
    (h : ¬ leaderboardCmp a b < 0) : leaderboardCmp b a ≤ 0 := by
  have := leaderboardCmp_antisymm a b
  omega

theorem lbKeyLe_trans (a b d : Player) (h1 : lbKeyLe a b) (h2 : lbKeyLe b d) :
    lbKeyLe a d := by
  unfold lbKeyLe at *
  omega

theorem leaderboardCmp_trans (a b d : Player)
    (h1 : leaderboardCmp a b ≤ 0) (h2 : leaderboardCmp b d ≤ 0) :
    leaderboardCmp a d ≤ 0 := by
  rw [leaderboardCmp_le_iff] at *
  exact lbKeyLe_trans a b d h1 h2

theorem leaderboardCmp_zero_of_tieKey (a b : Player)
    (h : lbTieKey a = lbTieKey b) : leaderboardCmp a b = 0 := by
  unfold lbTieKey statusRank lbTimeKey at h
  rw [Prod.ext_iff, Prod.ext_iff] at h
  unfold leaderboardCmp
  cases ha : a.status <;> cases hb : b.status <;>
    simp [ha, hb] at * <;> (try split_ifs) <;> omega

/-- The order demanded by the spec for winners: score descending, then
elapsed time ascending. -/
def winKeyLe (a b : Player) : Prop :=
  b.score < a.score ∨ (b.score = a.score ∧ a.totalTimeMs ≤ b.totalTimeMs)

theorem winnersCmp_le_iff (a b : Player) : winnersCmp a b ≤ 0 ↔ winKeyLe a b := by
  unfold winnersCmp winKeyLe
  split_ifs <;> omega

theorem winnersCmp_antisymm (a b : Player) :
    winnersCmp a b = - winnersCmp b a := by
  unfold winnersCmp
  split_ifs <;> omega

theorem winnersCmp_stop (a b : Player)
    (h : ¬ winnersCmp a b < 0) : winnersCmp b a ≤ 0 := by
  have := winnersCmp_antisymm a b
  omega

theorem winnersCmp_trans (a b d : Player)
    (h1 : winnersCmp a b ≤ 0) (h2 : winnersCmp b d ≤ 0) :
    winnersCmp a d ≤ 0 := by
  rw [winnersCmp_le_iff] at *
  unfold winKeyLe at *
  omega

/-! Concrete fixtures used to evaluate the handlers. -/

/-- First demo question. -/
def qD0 : Question := { id := 100, text := "X + 2 = 9", answer := 7, points := 10 }

/-- Second demo question. -/
def qD1 : Question := { id := 101, text := "2X + 1 = 9", answer := 4, points := 10 }

/-- A demo question set of the fixed size 10. -/
def qsDemo : List Question :=
  [qD0, qD1,
   { id := 102, text := "X + 3 = 5", answer := 2, points := 10 },
   { id := 103, text := "3X + 1 = 28", answer := 9, points := 10 },
   { id := 104, text := "X + 4 = 5", answer := 1, points := 10 },
   { id := 105, text := "2X + 2 = 12", answer := 5, points := 10 },
   { id := 106, text := "4X + 1 = 13", answer := 3, points := 10 },
   { id := 107, text := "X + 1 = 9", answer := 8, points := 10 },
   { id := 108, text := "5X + 2 = 32", answer := 6, points := 10 },
   { id := 109, text := "2X + 3 = 23", answer := 10, points := 10 }]

/-- Fixture player builder over `qsDemo`. -/
def mkPlayer (pid nm : String) (sc qi t : Nat) (stt : Status) : Player :=
  { id := pid, name := nm, score := sc, questionIndex := qi, questionSet := qsDemo
    gameStartTime := 0, totalTimeMs := t, timer := false
    currentQuestionStartTime := 0, status := stt }

/-- C1: contrary to the claim, the `newQuestion` payload does contain the
question's expected answer — the handlers spread the full question object
into the payload, so both the first question emitted on join and the next
question emitted on advance carry `answer`. -/
theorem C1_payload_carries_expected_answer :
    ((joinGame 0 5 "p1" (some "Alice") qsDemo []).2.head? =
      some (.unicast "p1" (.newQuestion
        { id := 100, text := "X + 2 = 9", answer := 7, points := 10, index := 1, total := 10 })))
    ∧ ((moveToNextQuestion 50 "p1" (joinGame 0 5 "p1" (some "Alice") qsDemo []).1).2.head? =
      some (.unicast "p1" (.newQuestion
        { id := 101, text := "2X + 1 = 9", answer := 4, points := 10, index := 2, total := 10 }))) := by
  decide

/-- Registry with one freshly joined player whose timer is live. -/
def c2Reg : Reg := (joinGame 0 5 "p2" (some "Bob") qsDemo []).1

/-- C2: contrary to the claim, a non-numeric submission to an in-progress
session with a live timer leaves the timer running: the handler returns
from the invalid-input branch before the timer-clearing statement, while
still emitting the feedback and scheduling the 2000 ms advance. -/
theorem C2_timer_survives_invalid_submission :
    ((lookupA c2Reg "p2").map Player.timer = some true)
    ∧ (submitAnswer "p2" 100 (.str "oops") c2Reg =
        (c2Reg,
         [.unicast "p2" (.answerFeedback false (some "Invalid Input.") (some 7))],
         [.advance "p2" 2000]))
    ∧ ((lookupA (submitAnswer "p2" 100 (.str "oops") c2Reg).1 "p2").map Player.timer
        = some true) := by
  decide

/-- A session that already finished: all ten questions consumed. -/
def c3Player : Player := mkPlayer "p3" "Carol" 40 10 5000 .finished

/-- Registry holding only the finished session. -/
def c3Reg : Reg := [("p3", c3Player)]

/-- C3: contrary to the claim, `moveToNextQuestion` has no guard for an
already finished session: calling it on one increments `questionIndex` to
11, overwrites `totalTimeMs`, and re-emits `gameOver`. -/
theorem C3_advance_mutates_finished_session :
    ((lookupA c3Reg "p3").map Player.status = some .finished)
    ∧ ((lookupA (moveToNextQuestion 999 "p3" c3Reg).1 "p3").map Player.questionIndex
        = some 11)
    ∧ ((lookupA (moveToNextQuestion 999 "p3" c3Reg).1 "p3").map Player.totalTimeMs
        = some 999)
    ∧ ((moveToNextQuestion 999 "p3" c3Reg).2.head?
        = some (.unicast "p3" (.gameOver 40 "00:00.99"))) := by
  decide

/-- One answered round of the C4 trace: the client submits a wrong answer
to the current question — the handler schedules a delayed advance — and
that advance then fires. `questionIndex` moves up by one and the session
stays in progress. -/
def c4Round (st : Reg) : Reg :=
  (moveToNextQuestion 0 "p4" (submitAnswer "p4" 0 (.str "1") st).1).1

/-- The C4 trace: join (questionIndex 0); nine answered rounds reach
questionIndex 9, the tenth question; the client then submits twice in a
row — legal, since the session is still in progress after the first
submission — so two delayed advances are pending at once; both then fire.
Every `moveToNextQuestion` call in the trace corresponds to an advance
scheduled by the preceding submission. -/
def c4Final : Reg :=
  let st0 := (joinGame 0 5 "p4" (some "Dave") qsDemo []).1
  let st9 := c4Round (c4Round (c4Round (c4Round (c4Round
               (c4Round (c4Round (c4Round (c4Round st0))))))))
  let sA := (submitAnswer "p4" 0 (.str "1") st9).1
  let sB := (submitAnswer "p4" 0 (.str "1") sA).1
  let a1 := (moveToNextQuestion 100 "p4" sB).1
  (moveToNextQuestion 200 "p4" a1).1

/-- C4: contrary to the claim, `questionIndex` can exceed `MAX_QUESTIONS`:
at the end of the C4 trace it is 11 while the bound is 10 (the first of
the two pending advances finishes the game, the second one increments
past the bound because the finished session is not guarded). -/
theorem C4_questionIndex_exceeds_bound :
    ((lookupA c4Final "p4").map Player.questionIndex = some 11)
    ∧ MAX_QUESTIONS = 10
    ∧ ((lookupA c4Final "p4").map Player.status = some .finished) := by
  decide

/-- C5: the leaderboard order is a permutation of the registry values,
pairwise ordered with finished sessions before in-progress ones, score
descending, elapsed time ascending among finished sessions — and every
class of comparator-tied players keeps its original registry order. -/
theorem C5_rank_total_order (st : Reg) :
    (sortedPlayers st).Perm (regValues st)
    ∧ (sortedPlayers st).Pairwise lbKeyLe
    ∧ ∀ k : Nat × Nat × Nat,
        (sortedPlayers st).filter (fun p => decide (lbTieKey p = k))
          = (regValues st).filter (fun p => decide (lbTieKey p = k)) := by
  refine ⟨sortC_perm _ _, ?_, ?_⟩
  · exact (sortC_pairwise leaderboardCmp leaderboardCmp_stop leaderboardCmp_trans
      (regValues st)).imp (fun h => (leaderboardCmp_le_iff _ _).mp h)
  · intro k
    exact sortC_filter _ _
      (fun a b ha hb =>
        leaderboardCmp_zero_of_tieKey a b
          ((of_decide_eq_true ha).trans (of_decide_eq_true hb).symm))
      (regValues st)

/-- Mixed fixture registry: two tied in-progress players around two
finished players. -/
def c5Reg : Reg :=
  [("a", mkPlayer "a" "A" 20 3 0 .inProgress),
   ("b", mkPlayer "b" "B" 50 10 5000 .finished),
   ("c", mkPlayer "c" "C" 20 4 0 .inProgress),
   ("d", mkPlayer "d" "D" 50 10 3000 .finished)]

theorem C5_rank_total_order_witness :
    (sortedPlayers c5Reg).Pairwise lbKeyLe
    ∧ ((sortedPlayers c5Reg).filter (fun p => decide (lbTieKey p = (1, 20, 0)))
        = (regValues c5Reg).filter (fun p => decide (lbTieKey p = (1, 20, 0)))) :=
  ⟨(C5_rank_total_order c5Reg).2.1, (C5_rank_total_order c5Reg).2.2 (1, 20, 0)⟩

/-- Scenario registry for C6: three finished sessions with
score/elapsed 100/5000, 100/6000 and 90/4000. -/
def c6Reg : Reg :=
  [("w1", mkPlayer "w1" "W1" 100 10 5000 .finished),
   ("w2", mkPlayer "w2" "W2" 100 10 6000 .finished),
   ("w3", mkPlayer "w3" "W3" 90 10 4000 .finished)]

/-- C6: winners are at most three, all drawn from the finished subset,
ordered by score descending then elapsed time ascending; the concrete
scenario 100/5000, 100/6000, 90/4000 comes back in exactly that order. -/
theorem C6_winners_top3_of_finished :
    (∀ st : Reg,
      (winnersOf st).length ≤ 3
      ∧ (∀ w ∈ winnersOf st,
          ∃ p, p ∈ regValues st ∧ p.status = .finished ∧ w = winnerProj p)
      ∧ ((finishedRanked st).take 3).Pairwise winKeyLe)
    ∧ winnersOf c6Reg =
        [{ name := "W1", score := 100, time := "00:05.00" },
         { name := "W2", score := 100, time := "00:06.00" },
         { name := "W3", score := 90, time := "00:04.00" }] := by
  constructor
  · intro st
    refine ⟨?_, ?_, ?_⟩
    · simp only [winnersOf, List.length_map, List.length_take]
      omega
    · intro w hw
      simp only [winnersOf, List.mem_map] at hw
      obtain ⟨p, hp, rfl⟩ := hw
      have hp2 : p ∈ finishedRanked st := (List.take_sublist 3 _).subset hp
      have hp3 : p ∈ (regValues st).filter (fun q => decide (q.status = .finished)) :=
        (sortC_perm _ _).mem_iff.mp hp2
      rw [List.mem_filter] at hp3
      exact ⟨p, hp3.1, of_decide_eq_true hp3.2, rfl⟩
    · exact ((sortC_pairwise winnersCmp winnersCmp_stop winnersCmp_trans _).sublist
        (List.take_sublist 3 _)).imp (fun h => (winnersCmp_le_iff _ _).mp h)
  · decide

theorem C6_winners_top3_of_finished_witness :
    (winnersOf c6Reg).length ≤ 3
    ∧ winnersOf c6Reg =
        [{ name := "W1", score := 100, time := "00:05.00" },
         { name := "W2", score := 100, time := "00:06.00" },
         { name := "W3", score := 90, time := "00:04.00" }] :=
  ⟨(C6_winners_top3_of_finished.1 c6Reg).1, C6_winners_top3_of_finished.2⟩

/-- C7: for an in-progress session and a parseable answer, the outcome is
correct exactly when the submitted question id matches the current
question's id and the parsed value matches its expected answer; a correct
answer adds the question's points to the score and schedules an advance
after 1000 ms, any mismatch gives incorrect feedback and a 2000 ms
advance; the string form and the number form of the expected integer both
parse to the same value. -/
theorem C7_correct_iff_id_and_value_match (st : Reg) (pid : String) (p : Player)
    (q : Question) (qid : Nat) (ans : JSVal) (v : Int)
    (hp : lookupA st pid = some p) (hs : p.status = .inProgress)
    (hq : p.questionSet.get? p.questionIndex = some q)
    (hv : parseIntJS ans = some v) :
    (submitAnswer pid qid ans st =
      if qid = q.id ∧ v = q.answer then
        (updateA st pid { p with timer := false, score := p.score + q.points },
         [.unicast pid (.answerFeedback true none (some q.answer))],
         [.advance pid 1000])
      else
        (updateA st pid { p with timer := false },
         [.unicast pid (.answerFeedback false (some "Incorrect.") (some q.answer))],
         [.advance pid 2000]))
    ∧ parseIntJS (.str "7") = some 7 ∧ parseIntJS (.num 7) = some 7 := by
  refine ⟨?_, by decide, by decide⟩
  unfold submitAnswer
  rw [hp]
  simp only [hs, hq, hv]
  rfl

/-- Fixture player for the C7 witness: fresh in-progress session. -/
def c7Player : Player := mkPlayer "p7" "Gina" 0 0 0 .inProgress

/-- Registry for the C7 witness. -/
def c7Reg : Reg := [("p7", c7Player)]

theorem C7_correct_iff_id_and_value_match_witness :
    (submitAnswer "p7" 100 (.str "7") c7Reg =
      if (100 : Nat) = qD0.id ∧ (7 : Int) = qD0.answer then
        (updateA c7Reg "p7" { c7Player with timer := false, score := c7Player.score + qD0.points },
         [.unicast "p7" (.answerFeedback true none (some qD0.answer))],
         [.advance "p7" 1000])
      else
        (updateA c7Reg "p7" { c7Player with timer := false },
         [.unicast "p7" (.answerFeedback false (some "Incorrect.") (some qD0.answer))],
         [.advance "p7" 2000]))
    ∧ parseIntJS (.str "7") = some 7 ∧ parseIntJS (.num 7) = some 7 :=
  C7_correct_iff_id_and_value_match c7Reg "p7" c7Player qD0 100 (.str "7") 7
    (by decide) (by decide) (by decide) (by decide)

/-- C9: for an in-progress session, an answer that does not parse as an
integer leaves the state unchanged and produces exactly the invalid-input
feedback (not correct, carrying the expected answer) plus a 2000 ms
scheduled advance — total behavior, nothing can escape. -/
theorem C9_invalid_input_feedback (st : Reg) (pid : String) (p : Player)
    (q : Question) (qid : Nat) (ans : JSVal)
    (hp : lookupA st pid = some p) (hs : p.status = .inProgress)
    (hq : p.questionSet.get? p.questionIndex = some q)
    (hv : parseIntJS ans = none) :
    submitAnswer pid qid ans st =
      (st,
       [.unicast pid (.answerFeedback false (some "Invalid Input.") (some q.answer))],
       [.advance pid 2000]) := by
  unfold submitAnswer
  rw [hp]
  simp only [hs, hq, hv]
  rfl

/-- Fixture player for the C9 witness. -/
def c9Player : Player := mkPlayer "p9" "Hana" 0 0 0 .inProgress

/-- Registry for the C9 witness. -/
def c9Reg : Reg := [("p9", c9Player)]

theorem C9_invalid_input_feedback_witness :
    submitAnswer "p9" 100 (.str "abc") c9Reg =
      (c9Reg,
       [.unicast "p9" (.answerFeedback false (some "Invalid Input.") (some qD0.answer))],
       [.advance "p9" 2000]) :=
  C9_invalid_input_feedback c9Reg "p9" c9Player qD0 100 (.str "abc")
    (by decide) (by decide) (by decide) (by decide)

/-- Modelled from the spec sentence of C8: render milliseconds as
MM:SS.ff with MM the whole minutes, SS the remaining whole seconds and ff
the two most significant sub-second digits, i.e. (ms mod 1000) / 10, all
zero-padded to two digits.  Stated for comparison with `formatTime`. -/
def formatTimeSpec (ms : Nat) : String :=
  padStart2 (toString (ms / 60000)) ++ ":" ++ padStart2 (toString (ms / 1000 % 60)) ++ "."
    ++ padStart2 (toString (ms % 1000 / 10))

/-- C8 counterexample: at 1070 ms the code renders the 70 leftover
milliseconds as "70", while the claimed format floor(70 / 10) = 7
zero-padded gives "07". -/
theorem C8_formatTime_counterexample :
    formatTime 1070 = "00:01.70"
    ∧ formatTimeSpec 1070 = "00:01.07"
    ∧ formatTime 1070 ≠ formatTimeSpec 1070 := by
  decide

set_option maxRecDepth 1000000 in
/-- The fractional component of `formatTime` over one period: taking the
first two characters of the decimal string of `d < 1000` yields the
decimal string of `d / 10` when `d` has three digits, and the string of
`d` itself otherwise. -/
theorem formatTime_frac_cases :
    ∀ d : Nat, d < 1000 →
      padStart2 ((toString d).take 2)
        = if 100 ≤ d then padStart2 (toString (d / 10)) else padStart2 (toString d) := by
  decide

/-- `formatTime` with the inner lets flattened and the minute divisor
combined. -/
theorem formatTime_eq (ms : Nat) :
    formatTime ms =
      padStart2 (toString (ms / 60000)) ++ ":" ++ padStart2 (toString (ms / 1000 % 60))
        ++ "." ++ padStart2 ((toString (ms % 1000)).take 2) := by
  simp only [formatTime]
  rw [Nat.div_div_eq_div_mul]

/-- C8 amended: `formatTime` renders whole minutes and remaining whole
seconds zero-padded as claimed, but the sub-second part is the decimal
string of ms mod 1000 truncated to its first two characters and then
zero-padded — which equals the claimed floor((ms mod 1000) / 10) exactly
when ms mod 1000 has three digits; below 100 leftover milliseconds the
value itself is printed zero-padded. -/
theorem C8_formatTime_amended (ms : Nat) :
    (formatTime ms =
      padStart2 (toString (ms / 60000)) ++ ":" ++ padStart2 (toString (ms / 1000 % 60)) ++ "."
        ++ (if 100 ≤ ms % 1000 then padStart2 (toString (ms % 1000 / 10))
            else padStart2 (toString (ms % 1000))))
    ∧ (100 ≤ ms % 1000 → formatTime ms = formatTimeSpec ms) := by
  have h1000 : ms % 1000 < 1000 := Nat.mod_lt _ (by omega)
  have hf := formatTime_frac_cases (ms % 1000) h1000
  constructor
  · rw [formatTime_eq, hf]
  · intro h
    rw [formatTime_eq, hf, if_pos h]
    rfl

theorem C8_formatTime_amended_witness :
    (formatTime 1070 =
      padStart2 (toString (1070 / 60000)) ++ ":" ++ padStart2 (toString (1070 / 1000 % 60)) ++ "."
        ++ (if 100 ≤ 1070 % 1000 then padStart2 (toString (1070 % 1000 / 10))
            else padStart2 (toString (1070 % 1000))))
    ∧ formatTime 1234 = formatTimeSpec 1234 :=
  ⟨(C8_formatTime_amended 1070).1, (C8_formatTime_amended 1234).2 (by decide)⟩

/-- C10: when no session is finished, the winner recomputation emits
nothing at all — no empty broadcast. -/
theorem C10_no_notification_without_finished (st : Reg)
    (h : ∀ p ∈ regValues st, p.status ≠ .finished) :
    checkAndNotifyWinners st = [] := by
  have hfil : (regValues st).filter (fun p => decide (p.status = .finished)) = [] := by
    rw [List.filter_eq_nil_iff]
    intro a ha
    simp [h a ha]
  unfold checkAndNotifyWinners winnersOf finishedRanked
  rw [hfil]
  rfl

/-- Registry for the C10 witness: one in-progress session only. -/
def c10Reg : Reg := [("x", mkPlayer "x" "Xena" 0 0 0 .inProgress)]

theorem C10_no_notification_without_finished_witness :
    checkAndNotifyWinners c10Reg = [] :=
  C10_no_notification_without_finished c10Reg (by decide)

end Quiz
